import Mathlib

/-!
# Verification of the qckfx agent execution engine

Shallow embedding of the agent execution engine of the qckfx repository:

* `ToolExecutionManagerImpl` (src/server/services/ToolExecutionManagerImpl.ts):
  the per-invocation state machine storing tool executions and permission
  requests in maps, keyed by id and indexed per session.
* `AgentService` (src/server/services/AgentService.ts): the service layer
  exposing `processQuery` (busy gating) and `resolvePermission`.
* `AgentRunner.processQuery` (src/core/AgentRunner.ts): the model–tool loop.

Modelling conventions:
* JavaScript `Map`s become association lists (`alookup` / `aset` / `aremoveAll`),
  `Set`s become duplicate-free lists (`sadd`).
* `Date` timestamps become `Nat` instants passed explicitly to every operation
  that reads the clock; `executionTime` subtraction is `Int`.
* `uuidv4()` values become explicit `freshId` arguments supplied by the caller.
* A method that can `throw` is embedded as returning
  `Except String α × State`; the returned state keeps every mutation performed
  before the throw, matching JavaScript semantics where mutations performed
  before an exception persist.
* Opaque `unknown` values (tool results) and `Record<string, unknown>`
  argument objects are never inspected by the embedded code, only stored,
  passed along and JSON-serialized; they are modelled by their serialized
  form, so `JSON.stringify` is the identity on this representation.
* `EventEmitter.emit` is modelled by appending the emitted payload to an
  event log carried in the state.
-/

/-- Lookup in an association list, mirroring JavaScript `Map.get`. -/
def alookup {α : Type} (l : List (String × α)) (k : String) : Option α :=
  (l.find? (fun p => p.1 == k)).map (·.2)

/-- Insert-or-replace in an association list, mirroring JavaScript `Map.set`. -/
def aset {α : Type} (l : List (String × α)) (k : String) (v : α) :
    List (String × α) :=
  if l.any (fun p => p.1 == k) then
    l.map (fun p => if p.1 == k then (k, v) else p)
  else
    l ++ [(k, v)]

/-- Remove a key from an association list, mirroring JavaScript `Map.delete`. -/
def aremoveAll {α : Type} (l : List (String × α)) (k : String) :
    List (String × α) :=
  l.filter (fun p => p.1 != k)

/-- Add an element to a duplicate-free list, mirroring JavaScript `Set.add`. -/
def sadd (l : List String) (x : String) : List String :=
  if l.contains x then l else l ++ [x]

/-- Opaque JSON-serializable values (`unknown` in the source), represented by
their serialization. -/
abbrev JsonValue := String

/-- Opaque `Record<string, unknown>` argument objects, represented by their
serialization. -/
abbrev Args := String

/-- `JSON.stringify` on the serialized representation of an opaque value. -/
def jsonStringify (v : String) : String := v

/-- JavaScript `String.prototype.includes`: `strIncludes s sub` is `true` when
`sub` occurs as a contiguous substring of `s`. -/
def strIncludes (s sub : String) : Bool :=
  decide (sub.toList <:+: s.toList)

namespace ToolExec

/-- `ToolExecutionStatus` (src/types/tool-execution.ts, mirrored from its uses
in ToolExecutionManagerImpl.ts and the state list of the specification). -/
inductive ToolExecutionStatus
  | pending
  | running
  | awaitingPermission
  | completed
  | error
  | aborted
deriving DecidableEq, Repr

/-- The error payload stored by `failExecution` (`{ message, stack }`); stack
traces carry no information in the embedding and are omitted. -/
structure ExecutionError where
  message : String
deriving DecidableEq, Repr

/-- `ToolExecutionState` (src/types/tool-execution.ts as used by
ToolExecutionManagerImpl.ts). -/
structure ToolExecutionState where
  id : String
  sessionId : String
  toolId : String
  toolName : String
  status : ToolExecutionStatus
  args : Args
  startTime : Nat
  result : Option JsonValue := none
  error : Option ExecutionError := none
  endTime : Option Nat := none
  executionTime : Option Int := none
  summary : Option String := none
  previewId : Option String := none
deriving DecidableEq, Repr

/-- `Partial<ToolExecutionState>` as passed to `updateExecution`: a field that
is `some` is present in the update object. -/
structure ToolExecutionUpdate where
  status : Option ToolExecutionStatus := none
  result : Option JsonValue := none
  error : Option ExecutionError := none
  endTime : Option Nat := none
  executionTime : Option Int := none
  summary : Option String := none
  previewId : Option String := none
deriving DecidableEq, Repr

/-- The spread `{ ...execution, ...updates }` in `updateExecution`. -/
def applyUpdate (e : ToolExecutionState) (u : ToolExecutionUpdate) :
    ToolExecutionState :=
  { e with
    status := u.status.getD e.status
    result := match u.result with | some r => some r | none => e.result
    error := match u.error with | some er => some er | none => e.error
    endTime := match u.endTime with | some t => some t | none => e.endTime
    executionTime :=
      match u.executionTime with | some t => some t | none => e.executionTime
    summary := match u.summary with | some s => some s | none => e.summary
    previewId :=
      match u.previewId with | some p => some p | none => e.previewId }

/-- `PermissionRequestState` (src/types/tool-execution.ts as used by
ToolExecutionManagerImpl.ts). -/
structure PermissionRequestState where
  id : String
  sessionId : String
  toolId : String
  toolName : String
  args : Args
  requestTime : Nat
  executionId : String
  resolvedTime : Option Nat := none
  granted : Option Bool := none
deriving DecidableEq, Repr

/-- `ToolExecutionEvent` payloads emitted through the manager's
`EventEmitter`. The permission events carry `this.executions.get(executionId)`
(hence an `Option`) together with the permission request. -/
inductive MgrEvent
  | created (e : ToolExecutionState)
  | updated (e : ToolExecutionState)
  | completed (e : ToolExecutionState)
  | errored (e : ToolExecutionState)
  | aborted (e : ToolExecutionState)
  | permissionRequested (e : Option ToolExecutionState)
      (p : PermissionRequestState)
  | permissionResolved (e : Option ToolExecutionState)
      (p : PermissionRequestState)
deriving DecidableEq, Repr

/-- The in-memory state of `ToolExecutionManagerImpl`: its five maps plus the
log of emitted events. -/
structure MgrState where
  executions : List (String × ToolExecutionState) := []
  sessionExecutions : List (String × List String) := []
  permissionRequests : List (String × PermissionRequestState) := []
  sessionPermissions : List (String × List String) := []
  executionPermissions : List (String × String) := []
  events : List MgrEvent := []
deriving DecidableEq, Repr

/-- `this.emitEvent(event, data)`. -/
def emit (st : MgrState) (ev : MgrEvent) : MgrState :=
  { st with events := st.events ++ [ev] }

end ToolExec

namespace ToolExecutionManagerImpl

open ToolExec

/-- `createExecution(sessionId, toolId, toolName, args)`: builds a PENDING
execution whose id is the freshly generated `uuidv4()` (the `freshId`
argument), stores it, indexes it under the session and emits CREATED. The
source has no failure path and no duplicate check. -/
def createExecution (st : MgrState) (sessionId toolId toolName : String)
    (args : Args) (freshId : String) (now : Nat) :
    ToolExecutionState × MgrState :=
  let execution : ToolExecutionState :=
    { id := freshId, sessionId := sessionId, toolId := toolId,
      toolName := toolName, status := .pending, args := args,
      startTime := now }
  let st := { st with executions := aset st.executions freshId execution }
  let st := { st with
    sessionExecutions := aset st.sessionExecutions sessionId
      (sadd ((alookup st.sessionExecutions sessionId).getD []) freshId) }
  let st := emit st (.created execution)
  (execution, st)

/-- `updateExecution(executionId, updates)`: throws
`Tool execution not found: <id>` when the id is unknown; otherwise applies the
spread update, stores it and emits UPDATED. -/
def updateExecution (st : MgrState) (executionId : String)
    (updates : ToolExecutionUpdate) :
    Except String ToolExecutionState × MgrState :=
  match alookup st.executions executionId with
  | none => (.error ("Tool execution not found: " ++ executionId), st)
  | some execution =>
    let updatedExecution := applyUpdate execution updates
    let st :=
      { st with executions := aset st.executions executionId updatedExecution }
    let st := emit st (.updated updatedExecution)
    (.ok updatedExecution, st)

/-- `updateStatus(executionId, status)`. -/
def updateStatus (st : MgrState) (executionId : String)
    (status : ToolExecutionStatus) :
    Except String ToolExecutionState × MgrState :=
  updateExecution st executionId { status := some status }

/-- `startExecution(executionId)`. -/
def startExecution (st : MgrState) (executionId : String) :
    Except String ToolExecutionState × MgrState :=
  updateStatus st executionId .running

/-- `completeExecution(executionId, result, executionTime)`: unknown id throws
before any mutation; otherwise updates to COMPLETED with result and times and
emits COMPLETED after the UPDATED event. -/
def completeExecution (st : MgrState) (executionId : String)
    (result : JsonValue) (executionTime : Int) (now : Nat) :
    Except String ToolExecutionState × MgrState :=
  match alookup st.executions executionId with
  | none => (.error ("Tool execution not found: " ++ executionId), st)
  | some _ =>
    match updateExecution st executionId
        { status := some .completed, result := some result,
          endTime := some now, executionTime := some executionTime } with
    | (.error m, st') => (.error m, st')
    | (.ok e, st') => (.ok e, emit st' (.completed e))

/-- `failExecution(executionId, error)`: unknown id throws before any
mutation; otherwise computes `executionTime = endTime - startTime`, updates to
ERROR with the error payload and emits ERROR after the UPDATED event. -/
def failExecution (st : MgrState) (executionId : String)
    (errorMessage : String) (now : Nat) :
    Except String ToolExecutionState × MgrState :=
  match alookup st.executions executionId with
  | none => (.error ("Tool execution not found: " ++ executionId), st)
  | some execution =>
    let executionTime : Int := (now : Int) - (execution.startTime : Int)
    match updateExecution st executionId
        { status := some .error, error := some ⟨errorMessage⟩,
          endTime := some now, executionTime := some executionTime } with
    | (.error m, st') => (.error m, st')
    | (.ok e, st') => (.ok e, emit st' (.errored e))

/-- `abortExecution(executionId)`: unknown id throws before any mutation;
otherwise computes `executionTime`, updates to ABORTED and emits ABORTED after
the UPDATED event. The source performs no terminal-status check. -/
def abortExecution (st : MgrState) (executionId : String) (now : Nat) :
    Except String ToolExecutionState × MgrState :=
  match alookup st.executions executionId with
  | none => (.error ("Tool execution not found: " ++ executionId), st)
  | some execution =>
    let executionTime : Int := (now : Int) - (execution.startTime : Int)
    match updateExecution st executionId
        { status := some .aborted, endTime := some now,
          executionTime := some executionTime } with
    | (.error m, st') => (.error m, st')
    | (.ok e, st') => (.ok e, emit st' (.aborted e))

/-- `requestPermission(executionId, args)`: unknown id throws before any
mutation; otherwise creates a permission request with a fresh uuid, stores and
indexes it, links the execution to it, moves the execution to
AWAITING_PERMISSION and emits PERMISSION_REQUESTED. -/
def requestPermission (st : MgrState) (executionId : String) (args : Args)
    (freshId : String) (now : Nat) :
    Except String PermissionRequestState × MgrState :=
  match alookup st.executions executionId with
  | none => (.error ("Tool execution not found: " ++ executionId), st)
  | some execution =>
    let permissionRequest : PermissionRequestState :=
      { id := freshId, sessionId := execution.sessionId,
        toolId := execution.toolId, toolName := execution.toolName,
        args := args, requestTime := now, executionId := executionId }
    let st := { st with
      permissionRequests := aset st.permissionRequests freshId
        permissionRequest }
    let st := { st with
      sessionPermissions := aset st.sessionPermissions execution.sessionId
        (sadd ((alookup st.sessionPermissions execution.sessionId).getD [])
          freshId) }
    let st := { st with
      executionPermissions := aset st.executionPermissions executionId
        freshId }
    match updateStatus st executionId .awaitingPermission with
    | (.error m, st') => (.error m, st')
    | (.ok _, st') =>
      let st' :=
        emit st'
          (.permissionRequested (alookup st'.executions executionId)
            permissionRequest)
      (.ok permissionRequest, st')

/-- `resolvePermission(permissionId, granted)`: unknown id throws before any
mutation; otherwise stores the resolved request, then moves the linked
execution to RUNNING (granted) or fails it with `Permission denied` (denied),
and emits PERMISSION_RESOLVED. -/
def resolvePermission (st : MgrState) (permissionId : String) (granted : Bool)
    (now : Nat) : Except String PermissionRequestState × MgrState :=
  match alookup st.permissionRequests permissionId with
  | none => (.error ("Permission request not found: " ++ permissionId), st)
  | some permissionRequest =>
    let updatedPermission : PermissionRequestState := { permissionRequest with
      resolvedTime := some now
      granted := some granted }
    let st := { st with
      permissionRequests := aset st.permissionRequests permissionId
        updatedPermission }
    let executionId := permissionRequest.executionId
    let step : Except String Unit × MgrState :=
      if granted then
        match updateStatus st executionId .running with
        | (.error m, st') => (.error m, st')
        | (.ok _, st') => (.ok (), st')
      else
        match failExecution st executionId "Permission denied" now with
        | (.error m, st') => (.error m, st')
        | (.ok _, st') => (.ok (), st')
    match step with
    | (.error m, st') => (.error m, st')
    | (.ok _, st') =>
      let st' :=
        emit st'
          (.permissionResolved (alookup st'.executions executionId)
            updatedPermission)
      (.ok updatedPermission, st')

/-- `resolvePermissionByExecutionId(executionId, granted)`: looks up the
permission id linked to the execution and delegates to `resolvePermission`;
throws `No permission request found for execution: <id>` when the link is
missing. -/
def resolvePermissionByExecutionId (st : MgrState) (executionId : String)
    (granted : Bool) (now : Nat) :
    Except String PermissionRequestState × MgrState :=
  match alookup st.executionPermissions executionId with
  | none =>
    (.error ("No permission request found for execution: " ++ executionId), st)
  | some permissionId => resolvePermission st permissionId granted now

/-- `getExecution(executionId)`. -/
def getExecution (st : MgrState) (executionId : String) :
    Option ToolExecutionState :=
  alookup st.executions executionId

/-- `getExecutionsForSession(sessionId)`: maps the session's id set through the
executions map and filters out misses (`.filter(Boolean)`). -/
def getExecutionsForSession (st : MgrState) (sessionId : String) :
    List ToolExecutionState :=
  ((alookup st.sessionExecutions sessionId).getD []).filterMap
    (alookup st.executions)

/-- `getPermissionRequestForExecution(executionId)`. -/
def getPermissionRequestForExecution (st : MgrState) (executionId : String) :
    Option PermissionRequestState :=
  (alookup st.executionPermissions executionId).bind
    (alookup st.permissionRequests)

end ToolExecutionManagerImpl

namespace AgentService

open ToolExec

/-- `ActiveTool` (AgentService.ts): the per-session record of a tool in
flight. -/
structure ActiveTool where
  toolId : String
  name : String
  startTime : Nat
  paramSummary : String
  executionId : String
deriving DecidableEq, Repr

/-- `PermissionRequest` (AgentService.ts): the service-level pending request.
The captured `resolver` closure is modelled by the `resolverCalls` log in
`SvcState`. -/
structure PermissionRequest where
  id : String
  sessionId : String
  toolId : String
  args : Args
  timestamp : Nat
deriving DecidableEq, Repr

/-- The fields of a `Session` record consulted by the operations modelled
here (`sessionManager.getSession` / `updateSession`). -/
structure SessionRec where
  isProcessing : Bool
deriving DecidableEq, Repr

/-- `AgentServiceEvent` payloads relevant to the modelled operations:
`PROCESSING_STARTED` emitted by `processQuery`, and the direct
`PERMISSION_RESOLVED` emission of `resolvePermission`'s fallback path. -/
inductive SvcEvent
  | processingStarted (sessionId : String)
  | permissionResolvedDirect (permissionId sessionId toolId : String)
      (granted : Bool) (timestamp : Nat)
deriving DecidableEq, Repr

/-- Errors thrown by the modelled prefix of `AgentService.processQuery`:
`AgentBusyError`, and the session-manager error for an unknown session. -/
inductive SvcError
  | agentBusy
  | sessionNotFound
deriving DecidableEq, Repr

/-- The state of an `AgentService` instance (plus the session manager's
session records): its maps, the manager, and logs standing for the emitted
events and the invoked permission resolvers. -/
structure SvcState where
  sessions : List (String × SessionRec) := []
  activeProcessingSessionIds : List String := []
  permissionRequests : List (String × PermissionRequest) := []
  activeTools : List (String × List ActiveTool) := []
  mgr : MgrState := {}
  resolverCalls : List (String × Bool) := []
  events : List SvcEvent := []
deriving DecidableEq, Repr

/-- The synchronous entry of `AgentService.processQuery(sessionId, query)`
(AgentService.ts lines 639-654): look up the session, reject with
`AgentBusyError` when it is already processing, otherwise mark it as
processing (active set + `isProcessing` flag) and emit PROCESSING_STARTED.
The rest of `processQuery` (the asynchronous model/tool orchestration) is
beyond this entry point and not consulted by the claims about it. -/
def processQueryEntry (st : SvcState) (sessionId : String) :
    Option SvcError × SvcState :=
  match alookup st.sessions sessionId with
  | none => (some .sessionNotFound, st)
  | some session =>
    if session.isProcessing || st.activeProcessingSessionIds.contains sessionId
    then
      (some .agentBusy, st)
    else
      let st := { st with
        activeProcessingSessionIds :=
          sadd st.activeProcessingSessionIds sessionId }
      let st := { st with
        sessions := aset st.sessions sessionId { session with
          isProcessing := true } }
      let st := { st with events := st.events ++ [.processingStarted sessionId] }
      (none, st)

/-- `AgentService.resolvePermission(permissionId, granted)` (AgentService.ts
lines 877-931). A missing id returns `false` immediately. Otherwise the
request is deleted from the service map, its resolver is invoked, and the
service resolves the permission in the `ToolExecutionManager` when it can be
located through the session's active tools; otherwise it emits a
PERMISSION_RESOLVED event directly. Exceptions from the manager are caught
and reported as `false`, keeping mutations performed before the throw. -/
def resolvePermission (st : SvcState) (permissionId : String) (granted : Bool)
    (now : Nat) : Bool × SvcState :=
  match alookup st.permissionRequests permissionId with
  | none => (false, st)
  | some request =>
    let st := { st with
      permissionRequests := aremoveAll st.permissionRequests permissionId }
    let st := { st with
      resolverCalls := st.resolverCalls ++ [(permissionId, granted)] }
    let sessionId := request.sessionId
    let toolId := request.toolId
    let activeTools := (alookup st.activeTools sessionId).getD []
    let activeTool := activeTools.find? (fun t => t.toolId == toolId)
    match activeTool with
    | some _tool =>
      let permissionRequests :=
        ((ToolExecutionManagerImpl.getExecutionsForSession st.mgr
            sessionId).filter
          (fun e => e.status == .awaitingPermission)).filterMap
          (fun e =>
            ToolExecutionManagerImpl.getPermissionRequestForExecution st.mgr
              e.id)
      match permissionRequests.find? (fun p => p.id == permissionId) with
      | some _ =>
        match ToolExecutionManagerImpl.resolvePermission st.mgr permissionId
            granted now with
        | (.ok _, mgr') => (true, { st with mgr := mgr' })
        | (.error _, mgr') =>
          -- the catch clause: the error is logged and `false` returned
          (false, { st with mgr := mgr' })
      | none =>
        let st := { st with
          events := st.events ++
            [.permissionResolvedDirect permissionId sessionId toolId granted
              now] }
        (true, st)
    | none =>
      let st := { st with
        events := st.events ++
          [.permissionResolvedDirect permissionId sessionId toolId granted
            now] }
      (true, st)
  -- `executionId` is guaranteed on every `ActiveTool`, so the source's
  -- `activeTool?.executionId` test coincides with finding the active tool.

end AgentService

namespace AgentRunner

/-- Message roles (`'user' | 'assistant'`). -/
inductive Role
  | user
  | assistant
deriving DecidableEq, Repr

/-- Conversation content parts (`text | tool_use | tool_result`). A
`tool_result` part's `tool_use_id` mirrors `toolCall.toolUseId`, which the
model may omit. -/
inductive ContentPart
  | text (text : String)
  | toolUse (toolUseId : String) (toolId : String) (args : Args)
  | toolResult (toolUseId : Option String) (content : String)
deriving DecidableEq, Repr

/-- `ConversationMessage`. -/
structure ConversationMessage where
  role : Role
  content : List ContentPart
deriving DecidableEq, Repr

/-- The `lastToolError` learning context stored on the session. -/
structure ToolErrorInfo where
  toolId : String
  args : Args
  error : String
deriving DecidableEq, Repr

/-- `SessionState` as read and written by `AgentRunner.processQuery`. The
source initializes `conversationHistory` when missing, so it is total here.
`tokenUsage` is the truthiness of the token-usage counters that triggers
`manageConversationSize`. -/
structure SessionState where
  conversationHistory : List ConversationMessage := []
  tokenUsage : Bool := false
  lastToolId : Option String := none
  lastToolUseId : Option String := none
  lastArgs : Option Args := none
  lastToolError : Option ToolErrorInfo := none
  lastResult : Option JsonValue := none
deriving DecidableEq, Repr

/-- A model `ToolCall` (`{ toolId, toolUseId, args }`). -/
structure ToolCall where
  toolId : String
  toolUseId : Option String
  args : Args
deriving DecidableEq, Repr

/-- A model response (`{ content }`). -/
structure Response where
  content : List ContentPart
deriving DecidableEq, Repr

/-- The outcome of `modelClient.getToolCall`: either the model declines to use
a tool (carrying a possibly-absent response, `toolChosen: false`), or it
chooses a tool call (`toolChosen: true`, with the `toolCall` payload the
collaborator contract guarantees). -/
inductive ToolCallDecision
  | respond (response : Option Response)
  | useTool (toolCall : ToolCall)
deriving DecidableEq, Repr

/-- An external tool from the `ToolRegistry`: its display name and its
`execute(args, context)`, which may throw (`Except.error`). The execution
context exposes the session state; tool side effects outside the session are
external to this embedding. -/
structure Tool where
  name : String
  execute : Args → SessionState → Except String JsonValue

/-- The external collaborators of `processQuery` (`modelClient`,
`toolRegistry`, and `manageConversationSize` from utils/TokenManager, which
is outside the embedded core). Model calls receive the number of model calls
already made, so an oracle can encode any sequence of model behaviors. -/
structure Env where
  getToolCall : Nat → String → SessionState → ToolCallDecision
  generateResponse : Nat → String → SessionState → Option Response
  getTool : String → Option Tool
  manageConversationSize : SessionState → SessionState

/-- The kinds of model-client calls, for the call log. -/
inductive ModelCall
  | getToolCall
  | generateResponse
deriving DecidableEq, Repr

/-- A `ToolResultEntry` accumulated in `toolResults`. -/
structure ToolResultEntry where
  toolId : String
  args : Args
  result : JsonValue
  toolUseId : Option String
deriving DecidableEq, Repr

/-- The loop-local mutable context of `processQuery`: `currentQuery`,
`toolResults`, the session, the iteration counter, plus two instrumentation
logs: the model calls made (`calls`) and the tool executions actually started
(`execLog`, the point where the registry's `onToolExecutionStart` callback
would fire and a `ToolExecutionState` would be created server-side). -/
structure LoopSt where
  currentQuery : String
  toolResults : List ToolResultEntry := []
  sess : SessionState
  iterations : Nat := 0
  calls : List ModelCall := []
  execLog : List (String × Args) := []
deriving DecidableEq, Repr

/-- How the `while` loop ended: `finished` via `break` with the value of
`finalResponse` (possibly absent), `ceiling` via the `iterations <
maxIterations` condition turning false, or `thrown` with an error propagating
to the outer catch. -/
inductive LoopOutcome
  | finished (response : Option Response) (st : LoopSt)
  | ceiling (st : LoopSt)
  | thrown (msg : String) (st : LoopSt)
deriving DecidableEq, Repr

/-- How one loop iteration ended: continue with the next iteration, or leave
the loop with an outcome. -/
inductive IterResult
  | next (st : LoopSt)
  | done (out : LoopOutcome)
deriving DecidableEq, Repr

/-- `maxIterations = 15` (AgentRunner.ts line 49). -/
def maxIterations : Nat := 15

/-- Record a model-client call. -/
def logCall (st : LoopSt) (c : ModelCall) : LoopSt :=
  { st with calls := st.calls ++ [c] }

/-- The session-state writes of AgentRunner.ts lines 115-118: store the
chosen tool id / correlation id / args and delete `lastToolError`. -/
def sessWithLastTool (sess : SessionState) (toolCall : ToolCall) :
    SessionState :=
  { sess with
    lastToolId := some toolCall.toolId
    lastToolUseId := toolCall.toolUseId
    lastArgs := some toolCall.args
    lastToolError := none }

/-- The corrective re-prompt built for a validation failure (AgentRunner.ts
lines 139-141, reproducing the template literal's embedded newlines and
indentation). -/
def mkFixPrompt (toolName errorMessage query argsJson : String) : String :=
  "The tool " ++ toolName ++ " reported an error: \"" ++ errorMessage ++
    "\"\n                                  " ++
    "Please provide corrected arguments for this tool to answer the query: " ++
    query ++
    "\n                                  Previous incorrect args: " ++
    jsonStringify argsJson

/-- The re-prompt after a successful tool call (AgentRunner.ts line 187). -/
def mkNextPrompt (toolName query : String) : String :=
  "Based on the result of using " ++ toolName ++
    ", what should I do next to answer: " ++ query

/-- The inner `catch` of an iteration (AgentRunner.ts lines 188-206): with at
least one prior tool result, generate a best-effort response from partial
results and `break`; with none, rethrow the error. -/
def iterCatch (env : Env) (query : String) (st : LoopSt) (msg : String) :
    LoopOutcome :=
  if st.toolResults.length > 0 then
    let response := env.generateResponse st.calls.length query st.sess
    .finished response (logCall st .generateResponse)
  else
    .thrown msg st

/-- One iteration of the model–tool loop (AgentRunner.ts lines 87-206), after
the `iterations++` bump: ask the model; a declined tool call breaks with the
model's response; an unknown tool id throws `Tool <id> not found` into the
inner catch; otherwise record the learning context, execute the tool
(appending to `execLog` at the execution start), handle `Invalid args`
validation errors by pushing a synthetic `tool_result` and re-prompting
(`continue`), rethrow other errors into the inner catch, and on success push
the `tool_result`, accumulate the entry and re-prompt. -/
def iterStep (env : Env) (query : String) (st : LoopSt) : IterResult :=
  let decision := env.getToolCall st.calls.length st.currentQuery st.sess
  let st := logCall st .getToolCall
  match decision with
  | .respond response => .done (.finished response st)
  | .useTool toolCall =>
    match env.getTool toolCall.toolId with
    | none =>
      .done (iterCatch env query st ("Tool " ++ toolCall.toolId ++ " not found"))
    | some tool =>
      let st := { st with sess := sessWithLastTool st.sess toolCall }
      let st := { st with execLog := st.execLog ++ [(toolCall.toolId, toolCall.args)] }
      match tool.execute toolCall.args st.sess with
      | .error msg =>
        if strIncludes msg "Invalid args" then
          let fixPrompt := mkFixPrompt tool.name msg query toolCall.args
          let sess := { st.sess with
            lastToolError := some ⟨toolCall.toolId, toolCall.args, msg⟩ }
          let sess := { sess with
            conversationHistory := sess.conversationHistory ++
              [⟨.user, [.toolResult toolCall.toolUseId fixPrompt]⟩] }
          .next { st with currentQuery := fixPrompt, sess := sess }
        else
          .done (iterCatch env query st msg)
      | .ok result =>
        let sess := { st.sess with lastResult := some result }
        let sess :=
          match toolCall.toolUseId with
          | some uid => { sess with
              conversationHistory := sess.conversationHistory ++
                [⟨.user, [.toolResult (some uid) (jsonStringify result)]⟩] }
          | none => sess
        .next { st with
          sess := sess
          toolResults := st.toolResults ++
            [⟨toolCall.toolId, toolCall.args, result, toolCall.toolUseId⟩]
          currentQuery := mkNextPrompt tool.name query }

/-- The `while (iterations < maxIterations)` loop, structurally recursive on
the remaining iteration budget (so termination is by construction): each
round bumps `iterations` and runs `iterStep`. -/
def runLoop (env : Env) (query : String) : Nat → LoopSt → LoopOutcome
  | 0, st => .ceiling st
  | fuel + 1, st =>
    match iterStep env query { st with iterations := st.iterations + 1 } with
    | .next st' => runLoop env query fuel st'
    | .done out => out

/-- `ProcessQueryResult`: either the success shape
`{ result: { toolResults, iterations }, response, sessionState, done }` or
the outer-catch error shape `{ error, sessionState, done }`. -/
inductive PQResult
  | ok (toolResults : List ToolResultEntry) (iterations : Nat)
      (response : String) (sess : SessionState)
  | err (error : String) (sess : SessionState)
deriving DecidableEq, Repr

/-- The full observable outcome of a `processQuery` run: its returned value
plus the instrumentation logs. -/
structure PQOut where
  res : PQResult
  calls : List ModelCall
  execLog : List (String × Args)
deriving DecidableEq, Repr

/-- The post-loop phase for a run that left the loop without throwing
(AgentRunner.ts lines 209-245): when no final response was produced, force
one `generateResponse` call; then append the assistant content to history
when non-empty, and extract the display text from the first content part. -/
def finishWith (env : Env) (query : String) (respOpt : Option Response)
    (st : LoopSt) : PQOut :=
  let forced : Option Response × LoopSt :=
    match respOpt with
    | none =>
      (env.generateResponse st.calls.length query st.sess,
        logCall st .generateResponse)
    | some r => (some r, st)
  let finalResponse := forced.1
  let st := forced.2
  let sess :=
    match finalResponse with
    | some r =>
      if r.content.length > 0 then
        { st.sess with
          conversationHistory := st.sess.conversationHistory ++
            [⟨.assistant, r.content⟩] }
      else st.sess
    | none => st.sess
  let responseText :=
    match finalResponse with
    | some r =>
      match r.content.head? with
      | some (.text t) => t
      | _ => ""
    | none => ""
  ⟨.ok st.toolResults st.iterations responseText sess, st.calls, st.execLog⟩

/-- Dispatch on how the loop ended: a thrown error reaches the outer catch
(AgentRunner.ts lines 246-253) and becomes the error result; otherwise the
post-loop phase runs. -/
def finishQuery (env : Env) (query : String) : LoopOutcome → PQOut
  | .thrown msg st => ⟨.err msg st.sess, st.calls, st.execLog⟩
  | .finished response st => finishWith env query response st
  | .ceiling st => finishWith env query none st

/-- The history append at the start of `processQuery` (AgentRunner.ts lines
64-71): push the query as a user message when the history is empty or its
last message's role is not `'user'`. -/
def appendUserQuery (query : String) (sess : SessionState) : SessionState :=
  if sess.conversationHistory.isEmpty ||
      (sess.conversationHistory.getLast?.map (·.role) != some Role.user) then
    { sess with
      conversationHistory := sess.conversationHistory ++
        [⟨.user, [.text query]⟩] }
  else
    sess

/-- The pre-loop preparation (AgentRunner.ts lines 52-71): initialize the
history (total here), manage conversation size when token usage is tracked,
and conditionally append the user query. -/
def prepSess (env : Env) (query : String) (sess : SessionState) :
    SessionState :=
  let sess := if sess.tokenUsage then env.manageConversationSize sess else sess
  appendUserQuery query sess

/-- The initial loop context (AgentRunner.ts lines 46-50). -/
def initLoopSt (query : String) (sess : SessionState) : LoopSt :=
  { currentQuery := query, sess := sess }

/-- `AgentRunner.processQuery(query, sessionState)` (AgentRunner.ts lines
43-254). -/
def processQuery (env : Env) (query : String) (sess : SessionState) : PQOut :=
  finishQuery env query
    (runLoop env query maxIterations (initLoopSt query (prepSess env query sess)))

/-- The loop context an outcome carries. -/
def LoopOutcome.st : LoopOutcome → LoopSt
  | .finished _ st => st
  | .ceiling st => st
  | .thrown _ st => st

end AgentRunner

namespace AgentRunner

/-- The loop context an iteration result carries. -/
def IterResult.st : IterResult → LoopSt
  | .next st => st
  | .done out => out.st

/-- Whether a `ProcessQueryResult` is the outer-catch error shape. -/
def PQResult.isErr : PQResult → Bool
  | .ok _ _ _ _ => false
  | .err _ _ => true

/-- The loop context right after the `iterations++` bump and the
`getToolCall` model call of an iteration (AgentRunner.ts lines 84-95). -/
def afterModelCall (st : LoopSt) : LoopSt :=
  logCall { st with iterations := st.iterations + 1 } .getToolCall

/-- The loop context right after the learning-context writes and the start of
the tool execution (AgentRunner.ts lines 115-124). -/
def afterToolStart (st : LoopSt) (toolCall : ToolCall) : LoopSt :=
  { afterModelCall st with
    sess := sessWithLastTool (afterModelCall st).sess toolCall
    execLog := (afterModelCall st).execLog ++
      [(toolCall.toolId, toolCall.args)] }

/-- The loop context with which the next iteration starts after an
argument-validation failure (AgentRunner.ts lines 128-154): `lastToolError`
recorded, the synthetic `tool_result` appended, and the corrective re-prompt
installed as the current query. -/
def afterValidationRetry (st : LoopSt) (toolCall : ToolCall)
    (toolName msg query : String) : LoopSt :=
  { afterToolStart st toolCall with
    currentQuery := mkFixPrompt toolName msg query toolCall.args
    sess := { sessWithLastTool st.sess toolCall with
      lastToolError := some
        { toolId := toolCall.toolId, args := toolCall.args, error := msg }
      conversationHistory :=
        (sessWithLastTool st.sess toolCall).conversationHistory ++
          [{ role := Role.user,
             content := [ContentPart.toolResult toolCall.toolUseId
               (mkFixPrompt toolName msg query toolCall.args)] }] } }

end AgentRunner

/-! ## Concrete instances used by counterexamples and witnesses -/

/-- A COMPLETED (terminal) execution, for exercising terminal-status
behavior. -/
def c1CompletedExec : ToolExec.ToolExecutionState :=
  { id := "exec-1", sessionId := "session-1", toolId := "bash",
    toolName := "BashTool", status := .completed, args := "command: ls",
    startTime := 0 }

/-- A manager holding only the COMPLETED execution `exec-1`. -/
def c1State : ToolExec.MgrState :=
  { executions := [("exec-1", c1CompletedExec)] }

/-- What `abortExecution` at time 5 turns `exec-1` into. -/
def c1AbortedExec : ToolExec.ToolExecutionState :=
  { c1CompletedExec with
    status := .aborted
    endTime := some 5
    executionTime := some 5 }

/-- An ERROR (terminal) execution for the amended-claim witness. -/
def c1wErroredExec : ToolExec.ToolExecutionState :=
  { id := "exec-9", sessionId := "session-9", toolId := "file_write",
    toolName := "FileWriteTool", status := .error, args := "path: a.txt",
    startTime := 2 }

/-- A manager holding only the ERROR execution `exec-9`. -/
def c1wState : ToolExec.MgrState :=
  { executions := [("exec-9", c1wErroredExec)] }

/-- Arguments reused across the two duplicate `createExecution` calls. -/
def c8Args : Args := "command: ls"

/-- First `createExecution` call: fresh uuid `uuid-1` for a tool call whose
model correlation id is `toolu_01`. -/
def c8Run1 : ToolExec.ToolExecutionState × ToolExec.MgrState :=
  ToolExecutionManagerImpl.createExecution {} "session-1" "bash" "BashTool"
    c8Args "uuid-1" 0

/-- Second `createExecution` call with identical session and tool-call data
(a duplicate of the same correlation id), fresh uuid `uuid-2`. -/
def c8Run2 : ToolExec.ToolExecutionState × ToolExec.MgrState :=
  ToolExecutionManagerImpl.createExecution c8Run1.2 "session-1" "bash"
    "BashTool" c8Args "uuid-2" 1

/-- A deterministic model oracle that always picks the valid tool `t`
(which always succeeds), driving the loop to its iteration ceiling. -/
def c3Env : AgentRunner.Env :=
  { getToolCall := fun _ _ _ =>
      AgentRunner.ToolCallDecision.useTool
        { toolId := "t", toolUseId := none, args := "a" }
    generateResponse := fun _ _ _ =>
      some { content := [AgentRunner.ContentPart.text "forced answer"] }
    getTool := fun i =>
      if i == "t" then
        some { name := "t", execute := fun _ _ => Except.ok "r" }
      else none
    manageConversationSize := fun s => s }

/-- The loop context `c3Env` leaves behind when the ceiling is reached. -/
def c3CeilSt : AgentRunner.LoopSt :=
  (AgentRunner.runLoop c3Env "q3" AgentRunner.maxIterations
    (AgentRunner.initLoopSt "q3" (AgentRunner.prepSess c3Env "q3" {}))).st

/-- A model oracle whose first decision is the valid tool `ls` (which
succeeds) and whose second decision is the undeclared tool `frobnicate`. -/
def c4Env : AgentRunner.Env :=
  { getToolCall := fun n _ _ =>
      if n == 0 then
        AgentRunner.ToolCallDecision.useTool
          { toolId := "ls", toolUseId := some "toolu_1", args := "path" }
      else
        AgentRunner.ToolCallDecision.useTool
          { toolId := "frobnicate", toolUseId := none, args := "x" }
    generateResponse := fun _ _ _ =>
      some { content := [AgentRunner.ContentPart.text "partial answer"] }
    getTool := fun i =>
      if i == "ls" then
        some { name := "ls", execute := fun _ _ => Except.ok "files" }
      else none
    manageConversationSize := fun s => s }

/-- A model oracle that always requests the undeclared tool `frobnicate`. -/
def c4wEnv : AgentRunner.Env :=
  { getToolCall := fun _ _ _ =>
      AgentRunner.ToolCallDecision.useTool
        { toolId := "frobnicate", toolUseId := none, args := "x" }
    generateResponse := fun _ _ _ =>
      some { content := [AgentRunner.ContentPart.text "partial answer"] }
    getTool := fun _ => none
    manageConversationSize := fun s => s }

/-- A loop context with one prior successful tool result. -/
def c4wSt1 : AgentRunner.LoopSt :=
  { currentQuery := "q4b"
    toolResults := [{ toolId := "ls", args := "p", result := "files"
                      toolUseId := some "u1" }]
    sess := {}
    iterations := 1
    calls := [AgentRunner.ModelCall.getToolCall]
    execLog := [("ls", "p")] }

/-- A tool whose execution always throws the non-validation error `boom`. -/
def c5wTool : AgentRunner.Tool :=
  { name := "bash", execute := fun _ _ => Except.error "boom" }

/-- A model oracle that always requests `c5wTool`. -/
def c5wEnv : AgentRunner.Env :=
  { getToolCall := fun _ _ _ =>
      AgentRunner.ToolCallDecision.useTool
        { toolId := "bash", toolUseId := some "u5", args := "x" }
    generateResponse := fun _ _ _ =>
      some { content := [AgentRunner.ContentPart.text "best effort"] }
    getTool := fun _ => some c5wTool
    manageConversationSize := fun s => s }

/-- The tool call `c5wEnv` always issues. -/
def c5wTc : AgentRunner.ToolCall :=
  { toolId := "bash", toolUseId := some "u5", args := "x" }

/-- A loop context with one prior successful tool result. -/
def c5wSt1 : AgentRunner.LoopSt :=
  { currentQuery := "q5b"
    toolResults := [{ toolId := "ls", args := "p", result := "files"
                      toolUseId := some "u1" }]
    sess := {}
    iterations := 1
    calls := [AgentRunner.ModelCall.getToolCall]
    execLog := [("ls", "p")] }

/-- A tool whose execution always throws an `Invalid args` validation
error. -/
def c6wTool : AgentRunner.Tool :=
  { name := "glob"
    execute := fun _ _ => Except.error "Invalid args: path required" }

/-- A model oracle that always requests `c6wTool` with bad arguments. -/
def c6wEnv : AgentRunner.Env :=
  { getToolCall := fun _ _ _ =>
      AgentRunner.ToolCallDecision.useTool
        { toolId := "glob", toolUseId := some "u6", args := "bad" }
    generateResponse := fun _ _ _ =>
      some { content := [AgentRunner.ContentPart.text "done"] }
    getTool := fun _ => some c6wTool
    manageConversationSize := fun s => s }

/-- The tool call `c6wEnv` always issues. -/
def c6wTc : AgentRunner.ToolCall :=
  { toolId := "glob", toolUseId := some "u6", args := "bad" }

/-- A session whose history ends in a user message saying `hello`. -/
def c9Sess : AgentRunner.SessionState :=
  { conversationHistory :=
      [{ role := AgentRunner.Role.user,
         content := [AgentRunner.ContentPart.text "hello"] }] }

/-! ## Helper lemmas -/

theorem alookup_aremoveAll {α : Type} (l : List (String × α)) (k : String) :
    alookup (aremoveAll l k) k = none := by
  unfold alookup aremoveAll
  rw [List.find?_eq_none.mpr]
  · rfl
  · intro p hp
    have h1 := List.of_mem_filter hp
    simp only [bne_iff_ne, ne_eq] at h1
    simp only [beq_iff_eq]
    exact h1

theorem alookup_aset {α : Type} (l : List (String × α)) (k : String) (v : α) :
    alookup (aset l k v) k = some v := by
  unfold aset
  split
  case isTrue hany =>
    unfold alookup
    induction l with
    | nil => simp at hany
    | cons hd tl ih =>
      by_cases hk : hd.1 == k
      · simp [hk, List.find?]
      · simp only [List.any_cons, hk, Bool.false_or] at hany
        simp only [List.map_cons, List.find?, hk, ite_false, if_false,
          Bool.false_eq_true]
        exact ih hany
  case isFalse hany =>
    unfold alookup
    induction l with
    | nil => simp [List.find?]
    | cons hd tl ih =>
      simp only [List.any_cons, Bool.or_eq_true, not_or] at hany
      have hk : (hd.1 == k) = false := by
        cases h : hd.1 == k
        · rfl
        · exact absurd h hany.1
      simp only [List.cons_append, List.find?, hk]
      exact ih (by simpa using hany.2)

theorem sadd_contains (l : List String) (x : String) :
    (sadd l x).contains x = true := by
  unfold sadd
  split
  case isTrue h => exact h
  case isFalse h => simp


/-! ## Claim C1 -/

/-- C1 counterexample: the claim "no subsequent ToolExecutionManager
operation changes the status of a terminal execution" is false. In a manager
holding `exec-1` with terminal status COMPLETED, a subsequent
`abortExecution` succeeds and changes its status to ABORTED (and a
subsequent `startExecution` moves it back to RUNNING). -/
theorem c1_terminal_transition_counterexample :
    c1CompletedExec.status = ToolExec.ToolExecutionStatus.completed ∧
    ToolExecutionManagerImpl.abortExecution c1State "exec-1" 5 =
      (Except.ok c1AbortedExec,
        { executions := [("exec-1", c1AbortedExec)],
          events := [.updated c1AbortedExec, .aborted c1AbortedExec] }) ∧
    c1AbortedExec.status = ToolExec.ToolExecutionStatus.aborted ∧
    (ToolExecutionManagerImpl.startExecution c1State "exec-1").1 =
      Except.ok { c1CompletedExec with
        status := ToolExec.ToolExecutionStatus.running } := by
  refine ⟨rfl, ?_, rfl, ?_⟩ <;> rfl

/-- C1 (amended): the manager never guards terminal statuses. Every
id-addressed transition operation applies its status change to any existing
execution regardless of its current status — in particular out of the
terminal statuses COMPLETED, ERROR and ABORTED; only an unknown id is
rejected. Shown here for `abortExecution` (any existing execution becomes
ABORTED) and `startExecution` (any existing execution becomes RUNNING). -/
theorem c1_amended_transitions_ignore_terminal_status
    (st : ToolExec.MgrState) (id : String) (e : ToolExec.ToolExecutionState)
    (now : Nat) (h : alookup st.executions id = some e) :
    (ToolExecutionManagerImpl.abortExecution st id now).1.map
        ToolExec.ToolExecutionState.status =
      Except.ok ToolExec.ToolExecutionStatus.aborted ∧
    (alookup (ToolExecutionManagerImpl.abortExecution st id now).2.executions
        id).map ToolExec.ToolExecutionState.status =
      some ToolExec.ToolExecutionStatus.aborted ∧
    (ToolExecutionManagerImpl.startExecution st id).1.map
        ToolExec.ToolExecutionState.status =
      Except.ok ToolExec.ToolExecutionStatus.running ∧
    (alookup (ToolExecutionManagerImpl.startExecution st id).2.executions
        id).map ToolExec.ToolExecutionState.status =
      some ToolExec.ToolExecutionStatus.running := by
  refine ⟨?_, ?_, ?_, ?_⟩ <;>
    simp only [ToolExecutionManagerImpl.abortExecution,
      ToolExecutionManagerImpl.startExecution,
      ToolExecutionManagerImpl.updateStatus,
      ToolExecutionManagerImpl.updateExecution, h, ToolExec.emit,
      ToolExec.applyUpdate, alookup_aset, Except.map, Option.map_some',
      Option.getD_some]

/-- C1 amended witness: instantiated on the ERROR (terminal) execution
`exec-9`, whose status both operations still change. -/
theorem c1_amended_witness :
    (ToolExecutionManagerImpl.abortExecution c1wState "exec-9" 7).1.map
        ToolExec.ToolExecutionState.status =
      Except.ok ToolExec.ToolExecutionStatus.aborted ∧
    (alookup (ToolExecutionManagerImpl.abortExecution c1wState "exec-9"
        7).2.executions "exec-9").map ToolExec.ToolExecutionState.status =
      some ToolExec.ToolExecutionStatus.aborted ∧
    (ToolExecutionManagerImpl.startExecution c1wState "exec-9").1.map
        ToolExec.ToolExecutionState.status =
      Except.ok ToolExec.ToolExecutionStatus.running ∧
    (alookup (ToolExecutionManagerImpl.startExecution c1wState
        "exec-9").2.executions "exec-9").map
        ToolExec.ToolExecutionState.status =
      some ToolExec.ToolExecutionStatus.running :=
  c1_amended_transitions_ignore_terminal_status c1wState "exec-9"
    c1wErroredExec 7 (by rfl)

/-! ## Claim C8 -/

/-- C8 counterexample: the claim "createExecution fails on a duplicate
correlation id within a session, and every created ToolExecutionState's id
equals the model's tool_use correlation id" is false. `createExecution`
receives no correlation id at all and assigns `id := uuidv4()`: for a model
tool call with correlation id `toolu_01`, the created id is the fresh uuid
`uuid-1`, not `toolu_01`; and a second call for the same session with
identical tool-call data does not fail — both executions end up stored and
indexed under the session. -/
theorem c8_createExecution_counterexample :
    c8Run1.1.id = "uuid-1" ∧
    c8Run1.1.id ≠ "toolu_01" ∧
    c8Run2.1.id = "uuid-2" ∧
    alookup c8Run2.2.executions "uuid-1" = some c8Run1.1 ∧
    alookup c8Run2.2.executions "uuid-2" = some c8Run2.1 ∧
    alookup c8Run2.2.sessionExecutions "session-1" =
      some ["uuid-1", "uuid-2"] := by
  refine ⟨rfl, ?_, rfl, ?_, ?_, ?_⟩ <;> decide

/-- C8 (amended): `createExecution` never fails. It assigns the freshly
generated uuid — not the model's tool_use correlation id, which it never
receives — as the execution's id, stores the PENDING execution under that
uuid, indexes it under the session, and emits CREATED; a call that
duplicates an existing execution's session and tool-call data simply
creates another execution. -/
theorem c8_amended_createExecution_total_fresh_id
    (st : ToolExec.MgrState) (sessionId toolId toolName : String)
    (args : Args) (freshId : String) (now : Nat) :
    (ToolExecutionManagerImpl.createExecution st sessionId toolId toolName
        args freshId now).1.id = freshId ∧
    (ToolExecutionManagerImpl.createExecution st sessionId toolId toolName
        args freshId now).1.status = ToolExec.ToolExecutionStatus.pending ∧
    alookup (ToolExecutionManagerImpl.createExecution st sessionId toolId
        toolName args freshId now).2.executions freshId =
      some (ToolExecutionManagerImpl.createExecution st sessionId toolId
        toolName args freshId now).1 ∧
    ((alookup (ToolExecutionManagerImpl.createExecution st sessionId toolId
        toolName args freshId now).2.sessionExecutions sessionId).getD
        []).contains freshId = true ∧
    (ToolExecutionManagerImpl.createExecution st sessionId toolId toolName
        args freshId now).2.events =
      st.events ++
        [ToolExec.MgrEvent.created
          (ToolExecutionManagerImpl.createExecution st sessionId toolId
            toolName args freshId now).1] := by
  refine ⟨rfl, rfl, ?_, ?_, rfl⟩
  · simp only [ToolExecutionManagerImpl.createExecution, ToolExec.emit,
      alookup_aset]
  · simp only [ToolExecutionManagerImpl.createExecution, ToolExec.emit,
      alookup_aset, Option.getD_some, sadd_contains]

/-! ## Claim C10 -/

/-- C10: every id-addressed manager operation (`updateExecution`,
`completeExecution`, `failExecution`, `abortExecution`, `requestPermission`,
`resolvePermission`, `resolvePermissionByExecutionId`) throws its not-found
error when the given execution or permission id is unknown — respectively
`Tool execution not found: <id>`, `Permission request not found: <id>` and
`No permission request found for execution: <id>` — and leaves the manager
state (all five maps and the event log) unchanged. -/
theorem c10_unknown_id_throws_state_unchanged
    (st : ToolExec.MgrState) (id : String)
    (u : ToolExec.ToolExecutionUpdate) (res : JsonValue) (t : Int)
    (m : String) (a : Args) (freshId : String) (g : Bool) (now : Nat)
    (h1 : alookup st.executions id = none)
    (h2 : alookup st.permissionRequests id = none)
    (h3 : alookup st.executionPermissions id = none) :
    ToolExecutionManagerImpl.updateExecution st id u =
      (Except.error ("Tool execution not found: " ++ id), st) ∧
    ToolExecutionManagerImpl.completeExecution st id res t now =
      (Except.error ("Tool execution not found: " ++ id), st) ∧
    ToolExecutionManagerImpl.failExecution st id m now =
      (Except.error ("Tool execution not found: " ++ id), st) ∧
    ToolExecutionManagerImpl.abortExecution st id now =
      (Except.error ("Tool execution not found: " ++ id), st) ∧
    ToolExecutionManagerImpl.requestPermission st id a freshId now =
      (Except.error ("Tool execution not found: " ++ id), st) ∧
    ToolExecutionManagerImpl.resolvePermission st id g now =
      (Except.error ("Permission request not found: " ++ id), st) ∧
    ToolExecutionManagerImpl.resolvePermissionByExecutionId st id g now =
      (Except.error ("No permission request found for execution: " ++ id),
        st) := by
  refine ⟨?_, ?_, ?_, ?_, ?_, ?_, ?_⟩ <;>
    simp only [ToolExecutionManagerImpl.updateExecution,
      ToolExecutionManagerImpl.completeExecution,
      ToolExecutionManagerImpl.failExecution,
      ToolExecutionManagerImpl.abortExecution,
      ToolExecutionManagerImpl.requestPermission,
      ToolExecutionManagerImpl.resolvePermission,
      ToolExecutionManagerImpl.resolvePermissionByExecutionId, h1, h2, h3]

/-- C10 witness: all seven operations rejected on the empty manager with the
unknown id `missing-id`, leaving it unchanged. -/
theorem c10_witness :
    ToolExecutionManagerImpl.updateExecution {} "missing-id" {} =
      (Except.error "Tool execution not found: missing-id",
        ({} : ToolExec.MgrState)) ∧
    ToolExecutionManagerImpl.completeExecution {} "missing-id" "r" 3 9 =
      (Except.error "Tool execution not found: missing-id",
        ({} : ToolExec.MgrState)) ∧
    ToolExecutionManagerImpl.failExecution {} "missing-id" "boom" 9 =
      (Except.error "Tool execution not found: missing-id",
        ({} : ToolExec.MgrState)) ∧
    ToolExecutionManagerImpl.abortExecution {} "missing-id" 9 =
      (Except.error "Tool execution not found: missing-id",
        ({} : ToolExec.MgrState)) ∧
    ToolExecutionManagerImpl.requestPermission {} "missing-id" "a" "p0" 9 =
      (Except.error "Tool execution not found: missing-id",
        ({} : ToolExec.MgrState)) ∧
    ToolExecutionManagerImpl.resolvePermission {} "missing-id" true 9 =
      (Except.error "Permission request not found: missing-id",
        ({} : ToolExec.MgrState)) ∧
    ToolExecutionManagerImpl.resolvePermissionByExecutionId {} "missing-id"
        true 9 =
      (Except.error "No permission request found for execution: missing-id",
        ({} : ToolExec.MgrState)) := by
  have h := c10_unknown_id_throws_state_unchanged {} "missing-id" {} "r" 3
    "boom" "a" "p0" true 9 (by rfl) (by rfl) (by rfl)
  simpa using h

/-! ## Claim C2 -/

/-- If a permission id is absent from the service's pending-request map,
`AgentService.resolvePermission` returns `false` and changes nothing. -/
theorem svc_resolvePermission_absent (st : AgentService.SvcState)
    (permissionId : String) (granted : Bool) (now : Nat)
    (h : alookup st.permissionRequests permissionId = none) :
    AgentService.resolvePermission st permissionId granted now = (false, st) := by
  unfold AgentService.resolvePermission
  rw [h]

/-- After any `AgentService.resolvePermission` call, the permission id is no
longer in the service's pending-request map: a found request is deleted
before anything else happens, and an absent one was never there. -/
theorem svc_resolvePermission_removes (st : AgentService.SvcState)
    (permissionId : String) (granted : Bool) (now : Nat) :
    alookup ((AgentService.resolvePermission st permissionId granted
        now).2).permissionRequests permissionId = none := by
  unfold AgentService.resolvePermission
  cases h : alookup st.permissionRequests permissionId with
  | none => exact h
  | some request =>
    simp only
    repeat' split
    all_goals simp [alookup_aremoveAll]

/-- C2: a second `AgentService.resolvePermission` on the same permission id
is a reported no-op failure: whatever the first call did, the repeat call
returns `false` and leaves the entire service state — including the manager's
stored permission request and the linked execution's status — exactly as the
first call left it. -/
theorem c2_resolvePermission_second_call_noop (st : AgentService.SvcState)
    (permissionId : String) (g g' : Bool) (now now' : Nat) :
    AgentService.resolvePermission
        ((AgentService.resolvePermission st permissionId g now).2)
        permissionId g' now' =
      (false, (AgentService.resolvePermission st permissionId g now).2) :=
  svc_resolvePermission_absent _ _ _ _
    (svc_resolvePermission_removes st permissionId g now)

/-! ## Claim C7 -/

/-- C7: while a session is processing — its `isProcessing` flag is set or it
is in the service's active-processing set — a new `processQuery` call for it
is rejected immediately with `AgentBusyError`, with the whole service state
unchanged: nothing is marked, no PROCESSING_STARTED (or any other) event is
emitted, and the query is not queued anywhere. -/
theorem c7_processQuery_busy_rejected (st : AgentService.SvcState)
    (sessionId : String) (session : AgentService.SessionRec)
    (hs : alookup st.sessions sessionId = some session)
    (hbusy : session.isProcessing = true ∨
      st.activeProcessingSessionIds.contains sessionId = true) :
    AgentService.processQueryEntry st sessionId =
      (some AgentService.SvcError.agentBusy, st) := by
  unfold AgentService.processQueryEntry
  rw [hs]
  simp only
  rcases hbusy with hb | hb
  · simp [hb]
  · have hmem : sessionId ∈ st.activeProcessingSessionIds := by
      simpa using hb
    simp [hmem]

/-- C7 witness: a session with `isProcessing = true` is rejected as busy with
no state change. -/
theorem c7_witness :
    AgentService.processQueryEntry
        { sessions := [("session-1", { isProcessing := true })] }
        "session-1" =
      (some AgentService.SvcError.agentBusy,
        { sessions := [("session-1", { isProcessing := true })] }) :=
  c7_processQuery_busy_rejected _ "session-1" { isProcessing := true }
    (by rfl) (Or.inl rfl)

/-! ## Model-tool loop lemmas -/

namespace AgentRunner

theorem runLoop_succ (env : Env) (q : String) (fuel : Nat) (st : LoopSt) :
    runLoop env q (fuel + 1) st =
      match iterStep env q { st with iterations := st.iterations + 1 } with
      | .next st' => runLoop env q fuel st'
      | .done out => out := rfl

theorem iterCatch_iterations (env : Env) (q : String) (st : LoopSt)
    (msg : String) :
    ((iterCatch env q st msg).st).iterations = st.iterations := by
  unfold iterCatch
  split <;> simp [logCall, LoopOutcome.st]

theorem iterStep_iterations (env : Env) (q : String) (st : LoopSt) :
    ((iterStep env q st).st).iterations = st.iterations := by
  unfold iterStep
  cases hdec : env.getToolCall st.calls.length st.currentQuery st.sess with
  | respond response => simp [logCall, IterResult.st, LoopOutcome.st]
  | useTool toolCall =>
    cases htool : env.getTool toolCall.toolId with
    | none =>
      simp only [htool, IterResult.st]
      rw [iterCatch_iterations]
      simp [logCall]
    | some tool =>
      simp only [htool, logCall]
      cases hexec : tool.execute toolCall.args (sessWithLastTool st.sess toolCall) with
      | error msg =>
        simp only [hexec]
        by_cases hval : strIncludes msg "Invalid args" = true
        · simp [hval, IterResult.st]
        · simp only [hval, ite_false, IterResult.st, Bool.false_eq_true]
          rw [iterCatch_iterations]
      | ok result =>
        simp only [hexec, IterResult.st]

theorem runLoop_iterations_le (env : Env) (q : String) :
    ∀ (fuel : Nat) (st : LoopSt),
      ((runLoop env q fuel st).st).iterations ≤ st.iterations + fuel := by
  intro fuel
  induction fuel with
  | zero => intro st; simp [runLoop, LoopOutcome.st]
  | succ n ih =>
    intro st
    have hstep := iterStep_iterations env q
      { st with iterations := st.iterations + 1 }
    rw [runLoop_succ]
    cases hit : iterStep env q { st with iterations := st.iterations + 1 } with
    | next st' =>
      rw [hit] at hstep
      simp only [IterResult.st] at hstep
      have := ih st'
      simp only
      omega
    | done out =>
      rw [hit] at hstep
      simp only [IterResult.st] at hstep
      simp only
      omega

theorem iterStep_unknown_tool (env : Env) (q : String) (st : LoopSt)
    (toolCall : ToolCall)
    (hdec : env.getToolCall st.calls.length st.currentQuery st.sess =
      ToolCallDecision.useTool toolCall)
    (htool : env.getTool toolCall.toolId = none) :
    iterStep env q st =
      .done (iterCatch env q (logCall st .getToolCall)
        ("Tool " ++ toolCall.toolId ++ " not found")) := by
  unfold iterStep
  simp only [hdec, htool]

theorem iterStep_exec_error (env : Env) (q : String) (st : LoopSt)
    (toolCall : ToolCall) (tool : Tool) (msg : String)
    (hdec : env.getToolCall st.calls.length st.currentQuery st.sess =
      ToolCallDecision.useTool toolCall)
    (htool : env.getTool toolCall.toolId = some tool)
    (hexec : tool.execute toolCall.args (sessWithLastTool st.sess toolCall) =
      Except.error msg)
    (hval : strIncludes msg "Invalid args" = false) :
    iterStep env q st =
      .done (iterCatch env q
        { currentQuery := st.currentQuery
          toolResults := st.toolResults
          sess := sessWithLastTool st.sess toolCall
          iterations := st.iterations
          calls := st.calls ++ [.getToolCall]
          execLog := st.execLog ++ [(toolCall.toolId, toolCall.args)] }
        msg) := by
  unfold iterStep
  simp only [hdec, htool, logCall, hexec, hval, ite_false, Bool.false_eq_true]

theorem iterStep_validation_error (env : Env) (q : String) (st : LoopSt)
    (toolCall : ToolCall) (tool : Tool) (msg : String)
    (hdec : env.getToolCall st.calls.length st.currentQuery st.sess =
      ToolCallDecision.useTool toolCall)
    (htool : env.getTool toolCall.toolId = some tool)
    (hexec : tool.execute toolCall.args (sessWithLastTool st.sess toolCall) =
      Except.error msg)
    (hval : strIncludes msg "Invalid args" = true) :
    iterStep env q st =
      .next
        { currentQuery := mkFixPrompt tool.name msg q toolCall.args
          toolResults := st.toolResults
          sess := { sessWithLastTool st.sess toolCall with
            lastToolError := some
              { toolId := toolCall.toolId, args := toolCall.args, error := msg }
            conversationHistory :=
              (sessWithLastTool st.sess toolCall).conversationHistory ++
                [{ role := Role.user,
                   content := [ContentPart.toolResult toolCall.toolUseId
                     (mkFixPrompt tool.name msg q toolCall.args)] }] }
          iterations := st.iterations
          calls := st.calls ++ [.getToolCall]
          execLog := st.execLog ++ [(toolCall.toolId, toolCall.args)] } := by
  unfold iterStep
  simp only [hdec, htool, logCall, hexec, hval, ite_true]

theorem finishQuery_finished_ok (env : Env) (q : String)
    (r : Option Response) (st : LoopSt) :
    ∃ text sessF, (finishQuery env q (.finished r st)).res =
      .ok st.toolResults st.iterations text sessF := by
  cases r with
  | none => exact ⟨_, _, rfl⟩
  | some resp => exact ⟨_, _, rfl⟩

end AgentRunner

/-! ## Claim C3 -/

/-- C3: the model–tool loop of `processQuery` runs at most `maxIterations =
15` iterations for every model oracle, tool registry and session (so it
terminates regardless of the model's behavior — `runLoop` is structurally
recursive on the remaining budget), and whenever the ceiling is reached
without a final answer the post-loop phase makes exactly one additional
forced `generateResponse` model call. -/
theorem c3_loop_ceiling_and_forced_call (env : AgentRunner.Env) (q : String)
    (sess : AgentRunner.SessionState) :
    AgentRunner.maxIterations = 15 ∧
    AgentRunner.processQuery env q sess =
      AgentRunner.finishQuery env q
        (AgentRunner.runLoop env q AgentRunner.maxIterations
          (AgentRunner.initLoopSt q (AgentRunner.prepSess env q sess))) ∧
    ((AgentRunner.runLoop env q AgentRunner.maxIterations
        (AgentRunner.initLoopSt q (AgentRunner.prepSess env q sess))).st).iterations ≤
      AgentRunner.maxIterations ∧
    (∀ st', AgentRunner.runLoop env q AgentRunner.maxIterations
        (AgentRunner.initLoopSt q (AgentRunner.prepSess env q sess)) =
        AgentRunner.LoopOutcome.ceiling st' →
      (AgentRunner.finishQuery env q
          (AgentRunner.LoopOutcome.ceiling st')).calls =
        st'.calls ++ [AgentRunner.ModelCall.generateResponse]) := by
  refine ⟨rfl, rfl, ?_, ?_⟩
  · have h := AgentRunner.runLoop_iterations_le env q AgentRunner.maxIterations
      (AgentRunner.initLoopSt q (AgentRunner.prepSess env q sess))
    simpa [AgentRunner.initLoopSt] using h
  · intro st' _
    simp [AgentRunner.finishQuery, AgentRunner.finishWith, AgentRunner.logCall]

/-- C3 witness: under the oracle `c3Env` that always picks a succeeding tool,
the loop reaches the ceiling and the post-loop phase appends exactly one
forced `generateResponse` call. -/
theorem c3_witness :
    (AgentRunner.finishQuery c3Env "q3"
        (AgentRunner.LoopOutcome.ceiling c3CeilSt)).calls =
      c3CeilSt.calls ++ [AgentRunner.ModelCall.generateResponse] :=
  (c3_loop_ceiling_and_forced_call c3Env "q3" {}).2.2.2 c3CeilSt (by rfl)

/-! ## Claim C4 -/

/-- C4 counterexample: the claim "whenever the model selects a tool id that
is not in the catalog the whole turn fails immediately with an error result"
is false. Under `c4Env` the first iteration succeeds with tool `ls`, the
second iteration selects the undeclared tool `frobnicate` (`getTool` returns
`none`), yet `processQuery` does not return an error result: it falls back to
one `generateResponse` call (the call log shows two model decisions plus the
fallback), and only `ls` was ever executed. -/
theorem c4_unknown_tool_counterexample :
    c4Env.getTool "frobnicate" = none ∧
    c4Env.getToolCall 1 "x" {} =
      AgentRunner.ToolCallDecision.useTool
        { toolId := "frobnicate", toolUseId := none, args := "x" } ∧
    (AgentRunner.processQuery c4Env "list files" {}).res.isErr = false ∧
    (AgentRunner.processQuery c4Env "list files" {}).calls =
      [AgentRunner.ModelCall.getToolCall, AgentRunner.ModelCall.getToolCall,
        AgentRunner.ModelCall.generateResponse] ∧
    (AgentRunner.processQuery c4Env "list files" {}).execLog =
      [("ls", "path")] := by
  refine ⟨rfl, rfl, rfl, rfl, rfl⟩

/-- C4 (amended): when the model selects a tool id that is not in the
catalog, the iteration throws `Tool <id> not found` and the tool is never
started (the execution log is unchanged, so no ToolExecutionState is created
for the request). If no tool call has succeeded yet this turn, the error
propagates and `processQuery` returns the error result `Tool <id> not
found`; if a prior tool call succeeded, the turn instead falls back to one
best-effort `generateResponse` call and returns a success result carrying
the partial tool results. -/
theorem c4_amended_unknown_tool (env : AgentRunner.Env) (q : String)
    (fuel : Nat) (st : AgentRunner.LoopSt) (toolCall : AgentRunner.ToolCall)
    (hdec : env.getToolCall st.calls.length st.currentQuery st.sess =
      AgentRunner.ToolCallDecision.useTool toolCall)
    (htool : env.getTool toolCall.toolId = none) :
    (st.toolResults = [] →
      AgentRunner.runLoop env q (fuel + 1) st =
        AgentRunner.LoopOutcome.thrown
          ("Tool " ++ toolCall.toolId ++ " not found")
          (AgentRunner.afterModelCall st) ∧
      (AgentRunner.finishQuery env q
          (AgentRunner.LoopOutcome.thrown
            ("Tool " ++ toolCall.toolId ++ " not found")
            (AgentRunner.afterModelCall st))).res =
        AgentRunner.PQResult.err ("Tool " ++ toolCall.toolId ++ " not found")
          st.sess ∧
      (AgentRunner.afterModelCall st).execLog = st.execLog) ∧
    (st.toolResults ≠ [] →
      AgentRunner.runLoop env q (fuel + 1) st =
        AgentRunner.LoopOutcome.finished
          (env.generateResponse (AgentRunner.afterModelCall st).calls.length q
            (AgentRunner.afterModelCall st).sess)
          (AgentRunner.logCall (AgentRunner.afterModelCall st)
            AgentRunner.ModelCall.generateResponse) ∧
      (AgentRunner.afterModelCall st).execLog = st.execLog ∧
      ∃ text sessF,
        (AgentRunner.finishQuery env q
            (AgentRunner.runLoop env q (fuel + 1) st)).res =
          AgentRunner.PQResult.ok st.toolResults (st.iterations + 1) text
            sessF) := by
  have hstep := AgentRunner.iterStep_unknown_tool env q
    { st with iterations := st.iterations + 1 } toolCall hdec htool
  constructor
  · intro hres
    refine ⟨?_, rfl, rfl⟩
    rw [AgentRunner.runLoop_succ, hstep]
    unfold AgentRunner.iterCatch
    simp [AgentRunner.logCall, hres, AgentRunner.afterModelCall]
  · intro hres
    have hpos : 0 < st.toolResults.length := List.length_pos.mpr hres
    have hrun : AgentRunner.runLoop env q (fuel + 1) st =
        AgentRunner.LoopOutcome.finished
          (env.generateResponse (AgentRunner.afterModelCall st).calls.length q
            (AgentRunner.afterModelCall st).sess)
          (AgentRunner.logCall (AgentRunner.afterModelCall st)
            AgentRunner.ModelCall.generateResponse) := by
      rw [AgentRunner.runLoop_succ, hstep]
      unfold AgentRunner.iterCatch
      simp only [AgentRunner.logCall, AgentRunner.afterModelCall]
      simp [hpos]
    refine ⟨hrun, rfl, ?_⟩
    rw [hrun]
    exact AgentRunner.finishQuery_finished_ok env q _ _

/-- C4 amended witness: under `c4wEnv` (which always requests the undeclared
tool `frobnicate`), a turn with no prior results throws `Tool frobnicate not
found`, and a turn with one prior successful result falls back to the
best-effort `generateResponse` answer. -/
theorem c4_amended_witness :
    (AgentRunner.runLoop c4wEnv "q4" 1 (AgentRunner.initLoopSt "q4" {}) =
      AgentRunner.LoopOutcome.thrown ("Tool " ++ "frobnicate" ++ " not found")
        (AgentRunner.afterModelCall (AgentRunner.initLoopSt "q4" {}))) ∧
    (AgentRunner.runLoop c4wEnv "q4" 1 c4wSt1 =
      AgentRunner.LoopOutcome.finished
        (c4wEnv.generateResponse
          (AgentRunner.afterModelCall c4wSt1).calls.length "q4"
          (AgentRunner.afterModelCall c4wSt1).sess)
        (AgentRunner.logCall (AgentRunner.afterModelCall c4wSt1)
          AgentRunner.ModelCall.generateResponse)) :=
  ⟨((c4_amended_unknown_tool c4wEnv "q4" 0
      (AgentRunner.initLoopSt "q4" {})
      { toolId := "frobnicate", toolUseId := none, args := "x" }
      rfl rfl).1 rfl).1,
   ((c4_amended_unknown_tool c4wEnv "q4" 0 c4wSt1
      { toolId := "frobnicate", toolUseId := none, args := "x" }
      rfl rfl).2 (by decide)).1⟩

/-! ## Claim C5 -/

/-- C5: when a tool execution fails with a non-validation error (its message
does not contain `Invalid args`): with at least one prior successful tool
call this turn, the loop breaks by generating a best-effort answer from the
partial results (one `generateResponse` call) and `processQuery` returns a
success result carrying those partial results; with no prior success the
error propagates and the caller receives the error result instead of a
response. -/
theorem c5_tool_failure_fallback_or_propagate (env : AgentRunner.Env)
    (q : String) (fuel : Nat) (st : AgentRunner.LoopSt)
    (toolCall : AgentRunner.ToolCall) (tool : AgentRunner.Tool)
    (msg : String)
    (hdec : env.getToolCall st.calls.length st.currentQuery st.sess =
      AgentRunner.ToolCallDecision.useTool toolCall)
    (htool : env.getTool toolCall.toolId = some tool)
    (hexec : tool.execute toolCall.args
      (AgentRunner.sessWithLastTool st.sess toolCall) = Except.error msg)
    (hval : strIncludes msg "Invalid args" = false) :
    (st.toolResults = [] →
      AgentRunner.runLoop env q (fuel + 1) st =
        AgentRunner.LoopOutcome.thrown msg
          (AgentRunner.afterToolStart st toolCall) ∧
      (AgentRunner.finishQuery env q
          (AgentRunner.LoopOutcome.thrown msg
            (AgentRunner.afterToolStart st toolCall))).res =
        AgentRunner.PQResult.err msg
          (AgentRunner.sessWithLastTool st.sess toolCall)) ∧
    (st.toolResults ≠ [] →
      AgentRunner.runLoop env q (fuel + 1) st =
        AgentRunner.LoopOutcome.finished
          (env.generateResponse
            (AgentRunner.afterToolStart st toolCall).calls.length q
            (AgentRunner.afterToolStart st toolCall).sess)
          (AgentRunner.logCall (AgentRunner.afterToolStart st toolCall)
            AgentRunner.ModelCall.generateResponse) ∧
      ∃ text sessF,
        (AgentRunner.finishQuery env q
            (AgentRunner.runLoop env q (fuel + 1) st)).res =
          AgentRunner.PQResult.ok st.toolResults (st.iterations + 1) text
            sessF) := by
  have hstep := AgentRunner.iterStep_exec_error env q
    { st with iterations := st.iterations + 1 } toolCall tool msg hdec htool
    hexec hval
  constructor
  · intro hres
    refine ⟨?_, rfl⟩
    rw [AgentRunner.runLoop_succ, hstep]
    unfold AgentRunner.iterCatch
    simp [hres, AgentRunner.afterToolStart, AgentRunner.afterModelCall,
      AgentRunner.logCall]
  · intro hres
    have hpos : 0 < st.toolResults.length := List.length_pos.mpr hres
    have hrun : AgentRunner.runLoop env q (fuel + 1) st =
        AgentRunner.LoopOutcome.finished
          (env.generateResponse
            (AgentRunner.afterToolStart st toolCall).calls.length q
            (AgentRunner.afterToolStart st toolCall).sess)
          (AgentRunner.logCall (AgentRunner.afterToolStart st toolCall)
            AgentRunner.ModelCall.generateResponse) := by
      rw [AgentRunner.runLoop_succ, hstep]
      unfold AgentRunner.iterCatch
      simp only [AgentRunner.afterToolStart, AgentRunner.afterModelCall,
        AgentRunner.logCall]
      simp [hpos]
    refine ⟨hrun, ?_⟩
    rw [hrun]
    exact AgentRunner.finishQuery_finished_ok env q _ _

/-- C5 witness: under `c5wEnv` (whose tool always throws `boom`), a turn with
no prior results propagates the error, and a turn with one prior successful
result falls back to the best-effort answer. -/
theorem c5_witness :
    (AgentRunner.runLoop c5wEnv "q5" 1 (AgentRunner.initLoopSt "q5" {}) =
      AgentRunner.LoopOutcome.thrown "boom"
        (AgentRunner.afterToolStart (AgentRunner.initLoopSt "q5" {}) c5wTc)) ∧
    (AgentRunner.runLoop c5wEnv "q5" 1 c5wSt1 =
      AgentRunner.LoopOutcome.finished
        (c5wEnv.generateResponse
          (AgentRunner.afterToolStart c5wSt1 c5wTc).calls.length "q5"
          (AgentRunner.afterToolStart c5wSt1 c5wTc).sess)
        (AgentRunner.logCall (AgentRunner.afterToolStart c5wSt1 c5wTc)
          AgentRunner.ModelCall.generateResponse)) :=
  ⟨((c5_tool_failure_fallback_or_propagate c5wEnv "q5" 0
      (AgentRunner.initLoopSt "q5" {}) c5wTc c5wTool "boom"
      rfl rfl rfl (by decide)).1 rfl).1,
   ((c5_tool_failure_fallback_or_propagate c5wEnv "q5" 0 c5wSt1
      c5wTc c5wTool "boom" rfl rfl rfl (by decide)).2 (by decide)).1⟩

/-! ## Claim C6 -/

/-- C6: when a tool's execute throws an argument-validation error (message
containing `Invalid args`), the turn does not terminate: the loop continues
with the next iteration from a context in which the error is recorded as the
session's learning context (`lastToolError`), a synthetic `tool_result` part
keyed by the tool call's correlation id and carrying the corrective
re-prompt is appended to the history, the re-prompt becomes the current
query, and the accumulated tool results are untouched. -/
theorem c6_validation_error_self_correction (env : AgentRunner.Env)
    (q : String) (fuel : Nat) (st : AgentRunner.LoopSt)
    (toolCall : AgentRunner.ToolCall) (tool : AgentRunner.Tool)
    (msg : String)
    (hdec : env.getToolCall st.calls.length st.currentQuery st.sess =
      AgentRunner.ToolCallDecision.useTool toolCall)
    (htool : env.getTool toolCall.toolId = some tool)
    (hexec : tool.execute toolCall.args
      (AgentRunner.sessWithLastTool st.sess toolCall) = Except.error msg)
    (hval : strIncludes msg "Invalid args" = true) :
    AgentRunner.runLoop env q (fuel + 1) st =
      AgentRunner.runLoop env q fuel
        (AgentRunner.afterValidationRetry st toolCall tool.name msg q) ∧
    (AgentRunner.afterValidationRetry st toolCall tool.name msg
        q).sess.lastToolError =
      some { toolId := toolCall.toolId, args := toolCall.args, error := msg } ∧
    (AgentRunner.afterValidationRetry st toolCall tool.name msg
        q).sess.conversationHistory =
      (AgentRunner.sessWithLastTool st.sess toolCall).conversationHistory ++
        [{ role := AgentRunner.Role.user,
           content := [AgentRunner.ContentPart.toolResult toolCall.toolUseId
             (AgentRunner.mkFixPrompt tool.name msg q toolCall.args)] }] ∧
    (AgentRunner.afterValidationRetry st toolCall tool.name msg
        q).currentQuery =
      AgentRunner.mkFixPrompt tool.name msg q toolCall.args ∧
    (AgentRunner.afterValidationRetry st toolCall tool.name msg
        q).toolResults = st.toolResults := by
  have hstep := AgentRunner.iterStep_validation_error env q
    { st with iterations := st.iterations + 1 } toolCall tool msg hdec htool
    hexec hval
  refine ⟨?_, rfl, rfl, rfl, rfl⟩
  rw [AgentRunner.runLoop_succ, hstep]
  rfl

/-- C6 witness: under `c6wEnv` (whose tool always reports `Invalid args: path
required`), the loop continues with the corrective-re-prompt context instead
of terminating. -/
theorem c6_witness :
    AgentRunner.runLoop c6wEnv "q6" 1 (AgentRunner.initLoopSt "q6" {}) =
      AgentRunner.runLoop c6wEnv "q6" 0
        (AgentRunner.afterValidationRetry (AgentRunner.initLoopSt "q6" {})
          c6wTc c6wTool.name "Invalid args: path required" "q6") :=
  (c6_validation_error_self_correction c6wEnv "q6" 0
    (AgentRunner.initLoopSt "q6" {}) c6wTc c6wTool
    "Invalid args: path required" rfl rfl rfl (by decide)).1

/-! ## Claim C9 -/

/-- C9 counterexample: the claim "the user query is appended iff it is not
already the last entry of the history" is false. With a history whose last
entry is the user message `hello`, the query `world` is not already the last
entry, yet `appendUserQuery` leaves the history unchanged — the source only
checks the last entry's role, not its content. -/
theorem c9_role_guard_counterexample :
    AgentRunner.appendUserQuery "world" c9Sess = c9Sess ∧
    c9Sess.conversationHistory.getLast? =
      some { role := AgentRunner.Role.user,
             content := [AgentRunner.ContentPart.text "hello"] } ∧
    ({ role := AgentRunner.Role.user,
       content := [AgentRunner.ContentPart.text "hello"] } :
        AgentRunner.ConversationMessage) ≠
      { role := AgentRunner.Role.user,
        content := [AgentRunner.ContentPart.text "world"] } := by
  refine ⟨by decide, by decide, by decide⟩

/-- C9 (amended): at the start of every `processQuery` call the user query is
appended to the conversation history if and only if the history is empty or
its last message's role is not `user`; otherwise the history (and the whole
session) is left unchanged. -/
theorem c9_amended_append_guarded_by_role (q : String)
    (sess : AgentRunner.SessionState) :
    ((AgentRunner.appendUserQuery q sess).conversationHistory =
        sess.conversationHistory ++
          [{ role := AgentRunner.Role.user,
             content := [AgentRunner.ContentPart.text q] }] ↔
      (sess.conversationHistory = [] ∨
        (sess.conversationHistory.getLast?.map (fun m => m.role)) ≠
          some AgentRunner.Role.user)) ∧
    (AgentRunner.appendUserQuery q sess = sess ↔
      ¬(sess.conversationHistory = [] ∨
        (sess.conversationHistory.getLast?.map (fun m => m.role)) ≠
          some AgentRunner.Role.user)) := by
  have hiff : (sess.conversationHistory.isEmpty ||
      (sess.conversationHistory.getLast?.map (fun m => m.role) !=
        some AgentRunner.Role.user)) = true ↔
      (sess.conversationHistory = [] ∨
        (sess.conversationHistory.getLast?.map (fun m => m.role)) ≠
          some AgentRunner.Role.user) := by
    simp [List.isEmpty_iff]
  unfold AgentRunner.appendUserQuery
  by_cases hc : (sess.conversationHistory.isEmpty ||
      (sess.conversationHistory.getLast?.map (fun m => m.role) !=
        some AgentRunner.Role.user)) = true
  · rw [if_pos hc]
    constructor
    · exact iff_of_true rfl (hiff.mp hc)
    · refine iff_of_false ?_ (not_not_intro (hiff.mp hc))
      intro he
      have hlen := congrArg (fun s => s.conversationHistory.length) he
      simp at hlen
  · rw [if_neg hc]
    have hpf : ¬(sess.conversationHistory = [] ∨
        (sess.conversationHistory.getLast?.map (fun m => m.role)) ≠
          some AgentRunner.Role.user) := fun hp => hc (hiff.mpr hp)
    constructor
    · refine iff_of_false ?_ hpf
      intro he
      have hlen := congrArg List.length he
      simp at hlen
    · exact iff_of_true rfl hpf
